import Mathlib

/-!
Verification of the remote automation protocol client of `sec_code_bench`
(`sec_code_bench/utils/cdp_utils.py`, `sec_code_bench/editor/application/__init__.py`,
`sec_code_bench/editor/application/vscode_lingma.py`).

The Python source is shallowly embedded: network and process effects
(HTTP discovery queries, websocket reads, subprocess launches) are injected as
explicit environment values, and each embedded function is a pure Lean
function over those environments.  Machine state that the source mutates
(the global message-id counter, the global termination flag) is threaded
explicitly.
-/

/-! ## String helpers

Python's `needle in haystack` substring test and `pathlib.Path(p).name`. -/

/-- Boolean prefix test on character lists. -/
def isPrefixB : List Char → List Char → Bool
  | [], _ => true
  | _ :: _, [] => false
  | a :: as, b :: bs => a == b && isPrefixB as bs

/-- Boolean substring test on character lists: `needle` occurs contiguously in the
second argument. -/
def containsAux (needle : List Char) : List Char → Bool
  | [] => needle.isEmpty
  | c :: rest => isPrefixB needle (c :: rest) || containsAux needle rest

/-- Python's `needle in haystack` for strings. -/
def strContains (needle haystack : String) : Bool :=
  containsAux needle.toList haystack.toList

/-- Python's `pathlib.Path(p).name`: the final path component, with trailing
slashes ignored. -/
def pathName (p : String) : String :=
  let rev := p.toList.reverse.dropWhile (· == '/')
  String.mk ((rev.takeWhile (· != '/')).reverse)

/-! ## Data model: discovery targets

One entry of the JSON list returned by the discovery endpoint
(`CdpOperator.get_data`), together with the environmental fact of whether a
websocket connection to its `webSocketDebuggerUrl` would succeed
(`websocket.create_connection` is I/O, so its outcome is injected per view). -/

/-- A discovery-endpoint target descriptor plus the injected outcome of
attempting to connect to it. -/
structure View where
  vid : String
  title : String
  parentId : Option String
  wsUrl : String
  connectOk : Bool
deriving Repr, DecidableEq

/-- Errors raised by the embedded CDP client. -/
inductive CdpErr where
  | accessError (msg : String)
  | retryExhausted
  | protocolError (method remoteMsg : String)
  | timeout (method : String)
deriving Repr, DecidableEq

/-! ## `CdpOperator.send_command` (cdp_utils.py lines 139-177)

The source increments the module-global `_cdp_message_id`, sends the envelope
`{id, method, params}`, then loops on `ws.recv()`:
frames whose `id` differs from the assigned id are discarded; the matching
frame either carries an `error` (raised as an exception with the remote
message) or yields `response.get("result", {})`; a
`WebSocketTimeoutException` during a read is re-raised as a timeout error.
The stream of reads is injected as a list of events; an exhausted list stands
for the read that blocks until the socket timeout fires. -/

/-- A parsed frame as `send_command` sees it: the optional `id` field, the
optional `error.message`, and the optional `result` payload. -/
structure RespFrame (α : Type) where
  rid : Option Nat
  err : Option String
  result : Option α
deriving Repr, DecidableEq

/-- One outcome of `ws.recv()`: a frame, or a read timeout. -/
inductive RecvEvent (α : Type) where
  | frame (r : RespFrame α)
  | timedOut
deriving Repr, DecidableEq

/-- The read loop of `send_command`, after the envelope with id `cid` has been
written: discard non-matching frames, raise on an embedded `error`, return the
`result` (defaulting to `{}`, i.e. `default`) of the matching frame, raise a
timeout error when a read times out. -/
def recvLoop [Inhabited α] (cid : Nat) (method : String) :
    List (RecvEvent α) → Except CdpErr α
  | [] => .error (.timeout method)
  | .timedOut :: _ => .error (.timeout method)
  | .frame r :: rest =>
    if r.rid = some cid then
      match r.err with
      | some m => .error (.protocolError method m)
      | none => .ok (r.result.getD default)
    else recvLoop cid method rest

/-- `CdpOperator.send_command`: thread the global `_cdp_message_id` counter
(`st`), assign `st + 1` to this call, and run the read loop.  Returns the new
counter value and the call's outcome. -/
def send_command [Inhabited α] (st : Nat) (method : String)
    (events : List (RecvEvent α)) : Nat × Except CdpErr α :=
  let command_id := st + 1
  (command_id, recvLoop command_id method events)

/-- Ids assigned by a sequence of `send_command` calls (each call is a method
name plus its injected read events), starting from counter value `st`. -/
def runCommands (st : Nat) : List (String × List (RecvEvent Unit)) → List Nat
  | [] => []
  | (m, evs) :: rest =>
    let r := send_command st m evs
    r.1 :: runCommands r.1 rest

/-! ## `CdpOperator.get_page_connect` (cdp_utils.py lines 53-89)

Up to `max_retry = 5` iterations; each iteration calls `get_data` (injected,
may raise), scans the views for one whose title contains
`Path(code_dir).name`, and tries to connect to each matching view in order,
returning the first that connects; errors are logged and the loop continues;
after the budget it raises the exhaustion error.  `env i` is the outcome of
the `get_data` call on retry `i`. -/

/-- First view in the list whose title contains `name` and whose connection
attempt succeeds (matching views that fail to connect are logged and
skipped). -/
def findConnectable (name : String) (views : List View) : Option View :=
  views.find? (fun v => strContains name v.title && v.connectOk)

/-- The retry loop of `get_page_connect`: `fuel` retries remain, `retry` is the
current retry index.  Returns the outcome and the number of `get_data`
attempts performed. -/
def connectGo (name : String) (env : Nat → Except String (List View)) :
    Nat → Nat → Except CdpErr View × Nat
  | _, 0 => (.error .retryExhausted, 0)
  | retry, fuel + 1 =>
    match env retry with
    | .error _ =>
      let r := connectGo name env (retry + 1) fuel
      (r.1, r.2 + 1)
    | .ok views =>
      match findConnectable name views with
      | some v => (.ok v, 1)
      | none =>
        let r := connectGo name env (retry + 1) fuel
        (r.1, r.2 + 1)

/-- `CdpOperator.get_page_connect code_dir`: run the retry loop with
`max_retry = 5` from retry index 0, matching on `Path(code_dir).name`. -/
def get_page_connect (code_dir : String)
    (env : Nat → Except String (List View)) : Except CdpErr View × Nat :=
  connectGo (pathName code_dir) env 0 5

/-! ## `CdpOperator.check_connection_status` (cdp_utils.py lines 257-311)

For `attempt` in `1 .. max_checks`: query `get_data` (injected per attempt,
may raise); filter views whose title contains `Path(code_dir).name`;
if some match and `attempt < max_checks`, sleep and continue; if some match on
the final attempt, return `False`; if none match, return `True`; if the query
raises, return `True`.  A trailing `return True` covers `max_checks = 0`. -/

/-- Views whose title contains `name` (the source reads
`view.get("title", "")`, so a missing title is the empty string; the embedded
`View` carries the resulting string directly). -/
def matchingViews (name : String) (views : List View) : List View :=
  views.filter (fun v => strContains name v.title)

/-- The check loop of `check_connection_status`: `attempt` is the 1-based
attempt index, `fuel` the number of attempts remaining
(`fuel = maxChecks - attempt + 1` at every call from the wrapper).  Returns
the boolean result and the number of `get_data` queries performed. -/
def checkGo (name : String) (attempts : Nat → Except String (List View))
    (maxChecks : Nat) : Nat → Nat → Bool × Nat
  | _, 0 => (true, 0)
  | attempt, fuel + 1 =>
    match attempts attempt with
    | .error _ => (true, 1)
    | .ok views =>
      if (matchingViews name views).isEmpty then (true, 1)
      else if attempt < maxChecks then
        let r := checkGo name attempts maxChecks (attempt + 1) fuel
        (r.1, r.2 + 1)
      else (false, 1)

/-- `CdpOperator.check_connection_status code_dir max_checks`: run the check
loop from attempt 1 with `maxChecks` attempts available, matching on
`Path(code_dir).name`. -/
def check_connection_status (code_dir : String) (maxChecks : Nat)
    (attempts : Nat → Except String (List View)) : Bool × Nat :=
  checkGo (pathName code_dir) attempts maxChecks 1 maxChecks

/-! ## `CdpOperator.close_windows_with_verification` (cdp_utils.py lines 313-346)

Sequence: `close_windows` in a `try/except` (errors logged); sleep;
`check_connection_status` in a `try/except` whose body only logs a leak
warning on `False` and a success message on `True`.  The log stream is made
explicit so that the swallowed failures stay observable in the model. -/

/-- Log events emitted by `close_windows_with_verification`. -/
inductive CloseLog where
  | closeFailed (e : String)
  | leakWarning
  | verifiedClosed
deriving Repr, DecidableEq

/-- `CdpOperator.close_windows_with_verification`: `closeOutcome` is the
injected outcome of the `close_windows` command (a CDP send, which may
raise); the verification queries are the injected `attempts` of
`check_connection_status`.  Returns the call's outcome — an `Except` so that
a raise could be expressed — and the emitted log events. -/
def close_windows_with_verification (code_dir : String)
    (closeOutcome : Except CdpErr Unit) (maxChecks : Nat)
    (attempts : Nat → Except String (List View)) :
    Except CdpErr Unit × List CloseLog :=
  let closeLogs : List CloseLog :=
    match closeOutcome with
    | .ok () => []
    | .error e => [.closeFailed (toString (repr e))]
  let verifyLogs : List CloseLog :=
    if (check_connection_status code_dir maxChecks attempts).1 then
      [.verifiedClosed]
    else
      [.leakWarning]
  (.ok (), closeLogs ++ verifyLogs)

/-! ## `IdeEditor._wait` (editor/application/__init__.py lines 289-319)

`ranger = self.timeout / check_interval`; `for _i in range(int(ranger))`:
evaluate the finish-sign probe (injected per iteration, may raise — caught
and logged — and may return `None`); if the returned content contains the
completion marker, return `True`; otherwise sleep `check_interval` and
continue; after the loop, log the timeout and return `False`.
`int(timeout / check_interval)` on non-negative ints is floor division,
i.e. `Nat` division. -/

/-- One injected outcome of the finish-sign probe
(`CdpOperator.evaluate_js`): a raise, or a returned value (`none` is
Python's `None`). -/
def ProbeOut : Type := Except String (Option String)

/-- The polling loop of `_wait`: `i` is the iteration index, `fuel` the
iterations remaining.  Returns the result and the number of iterations
executed. -/
def waitGo (flag : String) (probe : Nat → ProbeOut) :
    Nat → Nat → Bool × Nat
  | _, 0 => (false, 0)
  | i, fuel + 1 =>
    match probe i with
    | .ok (some out) =>
      if strContains flag out then (true, 1)
      else
        let r := waitGo flag probe (i + 1) fuel
        (r.1, r.2 + 1)
    | .ok none =>
      let r := waitGo flag probe (i + 1) fuel
      (r.1, r.2 + 1)
    | .error _ =>
      let r := waitGo flag probe (i + 1) fuel
      (r.1, r.2 + 1)

/-- `IdeEditor._wait`: poll the finish-sign probe for
`int(timeout / check_interval)` iterations.  `flag` is the completion marker
returned by `_get_finish_sign`. -/
def wait_run (timeout check_interval : Nat) (flag : String)
    (probe : Nat → ProbeOut) : Bool × Nat :=
  waitGo flag probe 0 (timeout / check_interval)

/-! ## `IdeEditor._code` (editor/application/__init__.py lines 264-287)

If `_call_focus` succeeds, inject the prompt (`send_input_text`, a CDP
exchange that may raise) and run `_wait`; a `True` wait is logged as success,
a `False` wait is logged as a timeout — either way `_code` returns normally.
If `_call_focus` fails, raise. -/

/-- `IdeEditor._code`: `focus` is the injected result of `_call_focus`,
`sendText` the injected outcome of `send_input_text`.  Returns the value of
`_wait` on normal return (observable through the logs), or the raised
error. -/
def code_run (timeout : Nat) (flag : String) (focus : Bool)
    (sendText : Except CdpErr Unit) (probe : Nat → ProbeOut) :
    Except String Bool :=
  if focus then
    match sendText with
    | .error e => .error (toString (repr e))
    | .ok () => .ok (wait_run timeout 1 flag probe).1
  else
    .error "Failed to locate key input box，can not input prompt"

/-! ## `IdeEditor.coding` (editor/application/__init__.py lines 170-223)

`self.open(...)` runs before the `try`; inside the `try`:
`get_page_connect`, a dead `None` check, `_call_pages`, then — depending on
`self.get_type()` — `get_child_pages_connect` + `_code(child_ws, ...)` or
`_code(main_ws, ...)`.  The `except` block optionally saves debug snapshots
(over `child_ws` if set, else `main_ws`) and re-raises; the `finally` block
calls `close_windows_with_verification(main_ws, code_dir)` inside its own
`try/except`.  Each stage's outcome is injected; the emitted action trace
records which connection each stage acted on. -/

/-- The two websocket connections a `coding` run can hold: the main window
connection returned by `get_page_connect` and the child panel connection
returned by `get_child_pages_connect`. -/
inductive ConnTag where
  | main
  | child
deriving Repr, DecidableEq

/-- Actions of a `coding` run that act on a connection.  The argument is the
value of the corresponding local variable at the call site (`none` is
Python's `None`). -/
inductive CodingAct where
  | callPagesOn (ws : Option ConnTag)
  | codeOn (ws : Option ConnTag)
  | saveDebugOn (ws : Option ConnTag)
  | closeVerifyOn (ws : Option ConnTag)
deriving Repr, DecidableEq

/-- Injected outcomes of the stages of one `coding` run.  `openOk` is
`self.open` (raises on `Popen` failure or from `prepare`); `mainConnect`
is `get_page_connect` (on success the returned socket is the main window
connection, so only success/failure is injected); `callPages` is
`self._call_pages`; `childConnect` is `get_child_pages_connect`;
`codeOutcome` is `self._code`; `closeVerify` is the outcome of
`close_windows_with_verification` in the `finally` block. -/
structure CodingEnv where
  openOk : Except String Unit
  mainConnect : Except String Unit
  callPages : Except String Bool
  childConnect : Except String Unit
  codeOutcome : Except String Unit
  closeVerify : Except String Unit
deriving Repr

/-- The `try` block of `coding`: returns the block's outcome, its action
trace, and the final values of the `main_ws` and `child_ws` locals. -/
def codingTry (ty : String) (env : CodingEnv) :
    Except String Unit × List CodingAct × Option ConnTag × Option ConnTag :=
  match env.mainConnect with
  | .error e => (.error e, [], none, none)
  | .ok () =>
    let mainWs : Option ConnTag := some .main
    match env.callPages with
    | .error e => (.error e, [.callPagesOn mainWs], mainWs, none)
    | .ok false =>
      (.error "run failed: wait timeout second and still unable to make the tag selected.",
       [.callPagesOn mainWs], mainWs, none)
    | .ok true =>
      if ty ≠ "embed" then
        match env.childConnect with
        | .error e => (.error e, [.callPagesOn mainWs], mainWs, none)
        | .ok () =>
          let childWs : Option ConnTag := some .child
          match env.codeOutcome with
          | .error e =>
            (.error e, [.callPagesOn mainWs, .codeOn childWs], mainWs, childWs)
          | .ok () =>
            (.ok (), [.callPagesOn mainWs, .codeOn childWs], mainWs, childWs)
      else
        match env.codeOutcome with
        | .error e => (.error e, [.callPagesOn mainWs, .codeOn mainWs], mainWs, none)
        | .ok () => (.ok (), [.callPagesOn mainWs, .codeOn mainWs], mainWs, none)

/-- The debug-capture `except` handler of `coding`: on an exception, when
`debug` is set, save a snapshot over `child_ws` if it is set, else over
`main_ws` (snapshot failures are swallowed); the exception is then
re-raised. -/
def debugTrace (debug : Bool) (res : Except String Unit)
    (mainWs childWs : Option ConnTag) : List CodingAct :=
  match res with
  | .ok () => []
  | .error _ =>
    if debug then
      match childWs with
      | some c => [.saveDebugOn (some c)]
      | none => [.saveDebugOn mainWs]
    else []

/-- Continuation of `IdeEditor.coding` from the `try` block on: the debug
snapshots of the `except` handler followed by the `finally` block's
`close_windows_with_verification(main_ws, code_dir)` call, which is wrapped
in its own `try/except` so its failure (`env.closeVerify`) is only logged. -/
def coding (ty : String) (debug : Bool) (env : CodingEnv) :
    Except String Unit × List CodingAct :=
  match env.openOk with
  | .error e => (.error e, [])
  | .ok () =>
    let r := codingTry ty env
    (r.1, r.2.1 ++ debugTrace debug r.1 r.2.2.1 r.2.2.2 ++ [.closeVerifyOn r.2.2.1])

/-- Predicate selecting the cleanup action in a `coding` trace. -/
def isCloseVerify : CodingAct → Bool
  | .closeVerifyOn _ => true
  | _ => false

/-! ## The abort coordinator (`vscode_lingma.py` lines 29-140)

`TokenLimitExceededException.__init__` with `terminate_all=True` calls
`_terminate_all_threads_and_exit`.  Every access to the global flag
`_GLOBAL_TERMINATION_IN_PROGRESS` happens inside `with
_GLOBAL_TERMINATION_LOCK`, so a concurrent execution of N callers is
equivalent to running the critical sections in their lock-acquisition order
and then each caller's tail; the model takes that order as given and folds
the flag through it.  The elector (the caller that saw the flag `False` and
set it `True`) runs the shutdown body: close all VSCode windows, set the
global exit flag, join non-daemon threads, `os.kill(pid, SIGTERM)`, clean up
resources, set `_GLOBAL_TERMINATION_EVENT`, `sys.exit(1)`.  Every other
caller waits `_GLOBAL_TERMINATION_EVENT.wait(timeout=30)` and returns. -/

/-- Actions of one `_terminate_all_threads_and_exit` call. -/
inductive AbortAct where
  | closeAllWindows
  | setExitFlag
  | joinThreads
  | signalSelf
  | cleanupResources
  | setEvent
  | exitProcess
  | waitEvent (timeoutSecs : Nat)
deriving Repr, DecidableEq

/-- The shutdown body executed by the elector, in source order. -/
def shutdownBody : List AbortAct :=
  [.closeAllWindows, .setExitFlag, .joinThreads, .signalSelf,
   .cleanupResources, .setEvent, .exitProcess]

/-- The critical section under `_GLOBAL_TERMINATION_LOCK`: read the flag; if
clear, set it and become the elector.  Returns (became elector, new flag). -/
def electStep (inProgress : Bool) : Bool × Bool :=
  if inProgress then (false, inProgress) else (true, true)

/-- The tail of one call after its critical section: the elector runs the
shutdown body, every other caller waits on the completion event with a
30-second bound and returns. -/
def terminateTrace (isElector : Bool) : List AbortAct :=
  if isElector then shutdownBody else [.waitEvent 30]

/-- Serialized run of `n` concurrent `_terminate_all_threads_and_exit` calls
in lock-acquisition order, starting from flag value `flag`: the per-caller
action traces. -/
def runTriggers : Nat → Bool → List (List AbortAct)
  | 0, _ => []
  | n + 1, flag =>
    let e := electStep flag
    terminateTrace e.1 :: runTriggers n e.2

/-! ## Helper lemmas -/

/-- The ids produced by a command sequence are `st + 1, st + 2, …` in order. -/
theorem runCommands_eq (st : Nat) (calls : List (String × List (RecvEvent Unit))) :
    runCommands st calls = (List.range calls.length).map (fun k => st + k + 1) := by
  induction calls generalizing st with
  | nil => rfl
  | cons c rest ih =>
    cases c with
    | mk m evs =>
      simp only [runCommands, send_command, List.length_cons, List.range_succ_eq_map,
        List.map_cons, List.map_map, ih]
      rw [List.cons_eq_cons]
      constructor
      · omega
      · apply List.map_congr_left
        intro k _
        simp only [Function.comp_apply]
        omega

/-- C8: across every sequence of `send_command` calls threading the process
counter `_cdp_message_id`, each call's assigned id is strictly greater than
every id assigned before it, and no id is ever reused. -/
theorem send_command_ids_monotonic (st : Nat)
    (calls : List (String × List (RecvEvent Unit))) :
    (runCommands st calls).Pairwise (· < ·) ∧ (runCommands st calls).Nodup := by
  have hpw : (runCommands st calls).Pairwise (· < ·) := by
    rw [runCommands_eq, List.pairwise_map]
    exact (List.pairwise_lt_range _).imp (fun hab => by omega)
  exact ⟨hpw, hpw.imp (fun h => Nat.ne_of_lt h)⟩

/-- C2: the `send_command` read loop discards every frame whose id differs
from the id assigned to this call without affecting the eventual result;
the matching frame's `result` is returned; a matching frame carrying an
`error` raises a protocol error with the remote message; a read timeout
raises a timeout error. -/
theorem send_command_protocol (st : Nat) (method : String) :
    (∀ (pre : List (RespFrame Nat)) (rest : List (RecvEvent Nat)),
        (∀ fr ∈ pre, fr.rid ≠ some (st + 1)) →
        (send_command st method (pre.map .frame ++ rest)).2 =
          (send_command st method rest).2)
  ∧ (∀ (fr : RespFrame Nat) (rest : List (RecvEvent Nat)),
        fr.rid = some (st + 1) → fr.err = none →
        (send_command st method (.frame fr :: rest)).2 = .ok (fr.result.getD 0))
  ∧ (∀ (fr : RespFrame Nat) (rest : List (RecvEvent Nat)) (msg : String),
        fr.rid = some (st + 1) → fr.err = some msg →
        (send_command st method (.frame fr :: rest)).2 =
          .error (.protocolError method msg))
  ∧ (∀ rest : List (RecvEvent Nat),
        (send_command st method (.timedOut :: rest)).2 =
          .error (.timeout method)) := by
  refine ⟨?_, ?_, ?_, ?_⟩
  · intro pre rest hpre
    induction pre with
    | nil => rfl
    | cons fr tail ih =>
      have hne : fr.rid ≠ some (st + 1) := hpre fr (by simp)
      simp only [List.map_cons, List.cons_append, send_command, recvLoop, if_neg hne]
      exact ih (fun g hg => hpre g (by simp [hg]))
  · intro fr rest hid herr
    simp [send_command, recvLoop, hid, herr]
  · intro fr rest msg hid herr
    simp [send_command, recvLoop, hid, herr]
  · intro rest
    rfl

/-- Witness for C2: with assigned id 1, a non-matching frame (id 7) is
discarded and the matching frame's result 5 is returned; a matching error
frame raises the protocol error; a timeout event raises the timeout error. -/
theorem send_command_protocol_witness :
    (send_command 0 "Runtime.evaluate"
        ([⟨some 7, none, some (3 : Nat)⟩].map RecvEvent.frame ++
          [.frame ⟨some 1, none, some 5⟩])).2 =
      (send_command 0 "Runtime.evaluate" [.frame ⟨some 1, none, some (5 : Nat)⟩]).2
  ∧ (send_command 0 "Runtime.evaluate"
        [RecvEvent.frame (⟨some 1, none, some 5⟩ : RespFrame Nat)]).2 = .ok 5
  ∧ (send_command 0 "Runtime.evaluate"
        [RecvEvent.frame (⟨some 1, some "boom", some 5⟩ : RespFrame Nat)]).2 =
      .error (.protocolError "Runtime.evaluate" "boom")
  ∧ (send_command 0 "Runtime.evaluate" ([.timedOut] : List (RecvEvent Nat))).2 =
      .error (.timeout "Runtime.evaluate") := by
  refine ⟨?_, ?_, ?_, ?_⟩
  · exact (send_command_protocol 0 "Runtime.evaluate").1
      [⟨some 7, none, some 3⟩] [.frame ⟨some 1, none, some 5⟩] (by decide)
  · exact (send_command_protocol 0 "Runtime.evaluate").2.1
      ⟨some 1, none, some 5⟩ [] rfl rfl
  · exact (send_command_protocol 0 "Runtime.evaluate").2.2.1
      ⟨some 1, some "boom", some 5⟩ [] "boom" rfl rfl
  · exact (send_command_protocol 0 "Runtime.evaluate").2.2.2 []

/-- Unfolding equation of the retry loop when the discovery query raises. -/
theorem connectGo_step_err (name : String) (env : Nat → Except String (List View))
    (retry fuel : Nat) (e : String) (h : env retry = .error e) :
    connectGo name env retry (fuel + 1) =
      ((connectGo name env (retry + 1) fuel).1,
       (connectGo name env (retry + 1) fuel).2 + 1) := by
  simp only [connectGo, h]

/-- Unfolding equation of the retry loop when a connectable matching view is
found. -/
theorem connectGo_step_hit (name : String) (env : Nat → Except String (List View))
    (retry fuel : Nat) (views : List View) (v : View)
    (h1 : env retry = .ok views) (h2 : findConnectable name views = some v) :
    connectGo name env retry (fuel + 1) = (.ok v, 1) := by
  simp only [connectGo, h1, h2]

/-- Unfolding equation of the retry loop when the query succeeds but no
matching view connects. -/
theorem connectGo_step_miss (name : String) (env : Nat → Except String (List View))
    (retry fuel : Nat) (views : List View)
    (h1 : env retry = .ok views) (h2 : findConnectable name views = none) :
    connectGo name env retry (fuel + 1) =
      ((connectGo name env (retry + 1) fuel).1,
       (connectGo name env (retry + 1) fuel).2 + 1) := by
  simp only [connectGo, h1, h2]

/-- The retry loop performs at most `fuel` discovery attempts. -/
theorem connectGo_used_le (name : String) (env : Nat → Except String (List View)) :
    ∀ fuel retry, (connectGo name env retry fuel).2 ≤ fuel := by
  intro fuel
  induction fuel with
  | zero => intro retry; simp [connectGo]
  | succ f ih =>
    intro retry
    cases henv : env retry with
    | error e =>
      rw [connectGo_step_err name env retry f e henv]
      exact Nat.succ_le_succ (ih (retry + 1))
    | ok views =>
      cases hf : findConnectable name views with
      | some v =>
        rw [connectGo_step_hit name env retry f views v henv hf]
        omega
      | none =>
        rw [connectGo_step_miss name env retry f views henv hf]
        exact Nat.succ_le_succ (ih (retry + 1))

/-- A view returned by the retry loop satisfies the acceptance test: its title
contains `name`, and its connection attempt succeeded. -/
theorem connectGo_ok (name : String) (env : Nat → Except String (List View)) :
    ∀ fuel retry v, (connectGo name env retry fuel).1 = .ok v →
      strContains name v.title = true ∧ v.connectOk = true := by
  intro fuel
  induction fuel with
  | zero => intro retry v h; simp [connectGo] at h
  | succ f ih =>
    intro retry v h
    cases henv : env retry with
    | error e =>
      rw [connectGo_step_err name env retry f e henv] at h
      exact ih (retry + 1) v h
    | ok views =>
      cases hf : findConnectable name views with
      | some w =>
        rw [connectGo_step_hit name env retry f views w henv hf] at h
        have hw := List.find?_some hf
        cases h
        simpa using hw
      | none =>
        rw [connectGo_step_miss name env retry f views henv hf] at h
        exact ih (retry + 1) v h

/-- When no attempt in the window yields a connectable matching view, the
retry loop raises the exhaustion error. -/
theorem connectGo_exhaust (name : String) (env : Nat → Except String (List View)) :
    ∀ fuel retry,
      (∀ i, retry ≤ i → i < retry + fuel → ∀ views, env i = .ok views →
        findConnectable name views = none) →
      (connectGo name env retry fuel).1 = .error .retryExhausted := by
  intro fuel
  induction fuel with
  | zero => intro retry _; rfl
  | succ f ih =>
    intro retry hnone
    cases henv : env retry with
    | error e =>
      rw [connectGo_step_err name env retry f e henv]
      exact ih (retry + 1) (fun i h1 h2 => hnone i (by omega) (by omega))
    | ok views =>
      rw [connectGo_step_miss name env retry f views henv
        (hnone retry (Nat.le_refl _) (by omega) views henv)]
      exact ih (retry + 1) (fun i h1 h2 => hnone i (by omega) (by omega))

/-- C6: `get_page_connect` performs at most 5 discovery attempts; a returned
connection is always to a target whose title contains the workspace
directory's base name (and whose connection attempt succeeded); and if no
attempt in the budget yields such a target, it raises the exhaustion error
rather than returning. -/
theorem get_page_connect_spec (code_dir : String)
    (env : Nat → Except String (List View)) :
    (get_page_connect code_dir env).2 ≤ 5
  ∧ (∀ v, (get_page_connect code_dir env).1 = .ok v →
      strContains (pathName code_dir) v.title = true ∧ v.connectOk = true)
  ∧ ((∀ i, i < 5 → ∀ views, env i = .ok views →
        findConnectable (pathName code_dir) views = none) →
      (get_page_connect code_dir env).1 = .error .retryExhausted) := by
  refine ⟨connectGo_used_le _ env 5 0, fun v h => connectGo_ok _ env 5 0 v h, ?_⟩
  intro hnone
  exact connectGo_exhaust _ env 5 0 (fun i h1 h2 => hnone i (by omega))

/-- Witness for C6: with the discovery endpoint down on every attempt, the
call raises the exhaustion error after at most 5 attempts. -/
theorem get_page_connect_spec_witness :
    (get_page_connect "/tmp/workspace" (fun _ => .error "down")).1 =
      .error .retryExhausted
  ∧ (get_page_connect "/tmp/workspace" (fun _ => .error "down")).2 ≤ 5 :=
  ⟨(get_page_connect_spec "/tmp/workspace" (fun _ => .error "down")).2.2
      (fun _ _ _ h => nomatch h),
   (get_page_connect_spec "/tmp/workspace" (fun _ => .error "down")).1⟩

/-- The polling loop executes at most `fuel` iterations. -/
theorem waitGo_used_le (flag : String) (probe : Nat → ProbeOut) :
    ∀ fuel i, (waitGo flag probe i fuel).2 ≤ fuel := by
  intro fuel
  induction fuel with
  | zero => intro i; simp [waitGo]
  | succ f ih =>
    intro i
    simp only [waitGo]
    cases hp : probe i with
    | error e => simpa using Nat.succ_le_succ (ih (i + 1))
    | ok o =>
      cases o with
      | none => simpa using Nat.succ_le_succ (ih (i + 1))
      | some out =>
        cases hc : strContains flag out with
        | false => simpa [hc] using Nat.succ_le_succ (ih (i + 1))
        | true => simp [hc]

/-- The polling loop is a function of the injected probe outputs: probes that
agree pointwise produce identical runs. -/
theorem waitGo_congr (flag : String) (probe1 probe2 : Nat → ProbeOut)
    (hagree : ∀ i, probe1 i = probe2 i) :
    ∀ fuel i, waitGo flag probe1 i fuel = waitGo flag probe2 i fuel := by
  intro fuel
  induction fuel with
  | zero => intro i; rfl
  | succ f ih =>
    intro i
    simp only [waitGo, hagree i, ih (i + 1)]

/-- C3: for every timeout and every positive check interval, `_wait` performs
at most `floor(timeout / check_interval)` polling iterations of the
finish-sign probe, and the iteration count (indeed the whole run) is uniquely
determined by the injected probe outputs. -/
theorem wait_iterations_spec (timeout check_interval : Nat) (flag : String)
    (probe : Nat → ProbeOut) (_hpos : 0 < check_interval) :
    (wait_run timeout check_interval flag probe).2 ≤ timeout / check_interval
  ∧ (∀ probe2, (∀ i, probe i = probe2 i) →
      wait_run timeout check_interval flag probe =
        wait_run timeout check_interval flag probe2) :=
  ⟨waitGo_used_le flag probe (timeout / check_interval) 0,
   fun probe2 hagree => waitGo_congr flag probe probe2 hagree _ 0⟩

/-- Witness for C3: a 10-second timeout polled at a 3-second interval runs at
most 3 iterations, whatever the probe returns. -/
theorem wait_iterations_spec_witness :
    (wait_run 10 3 "重新生成" (fun _ => .ok none)).2 ≤ 10 / 3 :=
  (wait_iterations_spec 10 3 "重新生成" (fun _ => .ok none) (by decide)).1

/-- If no probe output ever contains the completion marker, the polling loop
returns `false` for any fuel. -/
theorem waitGo_never_marker (flag : String) (probe : Nat → ProbeOut)
    (hprobe : ∀ i out, probe i = .ok (some out) → strContains flag out = false) :
    ∀ fuel i, (waitGo flag probe i fuel).1 = false := by
  intro fuel
  induction fuel with
  | zero => intro i; rfl
  | succ f ih =>
    intro i
    simp only [waitGo]
    cases hp : probe i with
    | error e => simpa using ih (i + 1)
    | ok o =>
      cases o with
      | none => simpa using ih (i + 1)
      | some out => simpa [hprobe i out hp] using ih (i + 1)

/-- C5: when the finish-sign probe never yields content containing the
completion marker, `_wait` returns `false` and `_code` (with focus acquired
and the prompt injected) returns normally with the did-not-complete outcome —
no exception reaches the caller. -/
theorem wait_timeout_nonfatal (timeout : Nat) (flag : String)
    (probe : Nat → ProbeOut)
    (hprobe : ∀ i out, probe i = .ok (some out) → strContains flag out = false) :
    (wait_run timeout 1 flag probe).1 = false
  ∧ code_run timeout flag true (.ok ()) probe = .ok false := by
  have hw : (wait_run timeout 1 flag probe).1 = false :=
    waitGo_never_marker flag probe hprobe _ 0
  refine ⟨hw, ?_⟩
  simp [code_run, hw]

/-- Witness for C5: a probe that always returns `None` never produces the
marker, so `_code` with a 300-second budget returns normally with `false`. -/
theorem wait_timeout_nonfatal_witness :
    (wait_run 300 1 "重新生成" (fun _ => .ok none)).1 = false
  ∧ code_run 300 "重新生成" true (.ok ()) (fun _ => .ok none) = .ok false :=
  wait_timeout_nonfatal 300 "重新生成" (fun _ => .ok none)
    (fun _ _ h => nomatch Except.ok.inj h)

/-- Unfolding equation of the check loop when the discovery query raises. -/
theorem checkGo_step_err (name : String) (attempts : Nat → Except String (List View))
    (maxChecks attempt fuel : Nat) (e : String) (h : attempts attempt = .error e) :
    checkGo name attempts maxChecks attempt (fuel + 1) = (true, 1) := by
  simp only [checkGo, h]

/-- Unfolding equation of the check loop when no matching view is found. -/
theorem checkGo_step_clear (name : String) (attempts : Nat → Except String (List View))
    (maxChecks attempt fuel : Nat) (views : List View)
    (h1 : attempts attempt = .ok views) (h2 : (matchingViews name views).isEmpty = true) :
    checkGo name attempts maxChecks attempt (fuel + 1) = (true, 1) := by
  simp only [checkGo, h1, h2, if_pos]

/-- Unfolding equation of the check loop when matching views remain and
further checks are allowed. -/
theorem checkGo_step_retry (name : String) (attempts : Nat → Except String (List View))
    (maxChecks attempt fuel : Nat) (views : List View)
    (h1 : attempts attempt = .ok views) (h2 : (matchingViews name views).isEmpty = false)
    (h3 : attempt < maxChecks) :
    checkGo name attempts maxChecks attempt (fuel + 1) =
      ((checkGo name attempts maxChecks (attempt + 1) fuel).1,
       (checkGo name attempts maxChecks (attempt + 1) fuel).2 + 1) := by
  simp only [checkGo, h1, h2, h3, if_pos, if_true, Bool.false_eq_true, if_false]

/-- Unfolding equation of the check loop when matching views remain on the
final allowed check. -/
theorem checkGo_step_fail (name : String) (attempts : Nat → Except String (List View))
    (maxChecks attempt fuel : Nat) (views : List View)
    (h1 : attempts attempt = .ok views) (h2 : (matchingViews name views).isEmpty = false)
    (h3 : ¬ attempt < maxChecks) :
    checkGo name attempts maxChecks attempt (fuel + 1) = (false, 1) := by
  simp only [checkGo, h1, h2, h3, Bool.false_eq_true, if_false]

/-- If every check before `k` finds matching views and check `k` raises, the
check loop started at `a` returns `true` after exactly `k + 1 - a` queries. -/
theorem checkGo_error_at (name : String) (attempts : Nat → Except String (List View))
    (maxChecks : Nat) :
    ∀ fuel a k e, a + fuel = maxChecks + 1 → a ≤ k → k ≤ maxChecks →
      (∀ j, a ≤ j → j < k → ∃ vs, attempts j = .ok vs ∧
        (matchingViews name vs).isEmpty = false) →
      attempts k = .error e →
      checkGo name attempts maxChecks a fuel = (true, k + 1 - a) := by
  intro fuel
  induction fuel with
  | zero => intro a k e hinv hak hkm _ _; omega
  | succ f ih =>
    intro a k e hinv hak hkm hpre herr
    rcases Nat.eq_or_lt_of_le hak with heq | hlt
    · subst heq
      rw [checkGo_step_err name attempts maxChecks a f e herr]
      have : a + 1 - a = 1 := by omega
      rw [this]
    · obtain ⟨vs, hvs, hne⟩ := hpre a (Nat.le_refl _) hlt
      rw [checkGo_step_retry name attempts maxChecks a f vs hvs hne (by omega)]
      rw [ih (a + 1) k e (by omega) (by omega) hkm
        (fun j h1 h2 => hpre j (by omega) h2) herr]
      simp only
      congr 1
      omega

/-- If the check loop returns `false`, it consumed its whole budget and the
final check found matching views. -/
theorem checkGo_false_at (name : String) (attempts : Nat → Except String (List View))
    (maxChecks : Nat) :
    ∀ fuel a, a + fuel = maxChecks + 1 →
      (checkGo name attempts maxChecks a fuel).1 = false →
      (checkGo name attempts maxChecks a fuel).2 = maxChecks + 1 - a ∧
      ∃ vs, attempts maxChecks = .ok vs ∧
        (matchingViews name vs).isEmpty = false := by
  intro fuel
  induction fuel with
  | zero => intro a _ hfalse; simp [checkGo] at hfalse
  | succ f ih =>
    intro a hinv hfalse
    cases herr : attempts a with
    | error e =>
      rw [checkGo_step_err name attempts maxChecks a f e herr] at hfalse
      simp at hfalse
    | ok vs =>
      cases hemp : (matchingViews name vs).isEmpty with
      | true =>
        rw [checkGo_step_clear name attempts maxChecks a f vs herr hemp] at hfalse
        simp at hfalse
      | false =>
        by_cases hlt : a < maxChecks
        · rw [checkGo_step_retry name attempts maxChecks a f vs herr hemp hlt] at hfalse ⊢
          obtain ⟨hcount, hvs⟩ := ih (a + 1) (by omega) hfalse
          refine ⟨?_, hvs⟩
          simp only [hcount]
          omega
        · have ha : a = maxChecks := by omega
          rw [checkGo_step_fail name attempts maxChecks a f vs herr hemp hlt]
          subst ha
          exact ⟨by omega, vs, herr, hemp⟩

/-- C9: if the discovery query raises on a check that `check_connection_status`
actually executes, the function returns `true` on that check (an unreachable
endpoint is reported as properly closed), performing no further checks; and
it returns `false` only when matching targets are still listed on the final
check, having used the whole check budget. -/
theorem check_status_spec (code_dir : String) (maxChecks : Nat)
    (attempts : Nat → Except String (List View)) :
    (∀ k e, 1 ≤ k → k ≤ maxChecks →
      (∀ j, 1 ≤ j → j < k → ∃ vs, attempts j = .ok vs ∧
        (matchingViews (pathName code_dir) vs).isEmpty = false) →
      attempts k = .error e →
      check_connection_status code_dir maxChecks attempts = (true, k))
  ∧ ((check_connection_status code_dir maxChecks attempts).1 = false →
      (check_connection_status code_dir maxChecks attempts).2 = maxChecks ∧
      ∃ vs, attempts maxChecks = .ok vs ∧
        (matchingViews (pathName code_dir) vs).isEmpty = false) := by
  constructor
  · intro k e h1 h2 hpre herr
    have := checkGo_error_at (pathName code_dir) attempts maxChecks maxChecks 1 k e
      (by omega) h1 h2 hpre herr
    rw [check_connection_status, this, Nat.add_sub_cancel]
  · intro hfalse
    have := checkGo_false_at (pathName code_dir) attempts maxChecks maxChecks 1
      (by omega) hfalse
    rw [check_connection_status] at hfalse ⊢
    exact ⟨by rw [this.1]; omega, this.2⟩

/-- Injected discovery outcomes for the C9 witness: check 1 still sees a
matching view, check 2 finds the endpoint unreachable. -/
def checkWitnessEnv : Nat → Except String (List View) := fun n =>
  match n with
  | 1 => .ok [⟨"t1", "proj - Visual Studio Code", none, "ws://x", true⟩]
  | 2 => .error "connection refused"
  | _ => .ok []

/-- Witness for C9: with a matching view on check 1 and an unreachable
endpoint on check 2, the function returns `true` after exactly 2 of its 3
checks. -/
theorem check_status_spec_witness :
    check_connection_status "/w/proj" 3 checkWitnessEnv = (true, 2) :=
  (check_status_spec "/w/proj" 3 checkWitnessEnv).1 2 "connection refused"
    (by decide) (by decide)
    (fun j hj1 hj2 => by
      interval_cases j
      exact ⟨[⟨"t1", "proj - Visual Studio Code", none, "ws://x", true⟩],
        rfl, by decide⟩)
    rfl

/-- C7: `close_windows_with_verification` never raises to its caller — for
every outcome of the close command and of the verification queries it returns
normally; a failing close command and a still-listed matching target are only
logged. -/
theorem close_verification_total (code_dir : String)
    (closeOutcome : Except CdpErr Unit) (maxChecks : Nat)
    (attempts : Nat → Except String (List View)) :
    (close_windows_with_verification code_dir closeOutcome maxChecks attempts).1 =
      .ok ()
  ∧ (∀ e, closeOutcome = .error e →
      CloseLog.closeFailed (toString (repr e)) ∈
        (close_windows_with_verification code_dir closeOutcome maxChecks attempts).2)
  ∧ ((check_connection_status code_dir maxChecks attempts).1 = false →
      CloseLog.leakWarning ∈
        (close_windows_with_verification code_dir closeOutcome maxChecks attempts).2) := by
  refine ⟨rfl, ?_, ?_⟩
  · intro e he
    subst he
    simp [close_windows_with_verification]
  · intro hfalse
    cases closeOutcome with
    | ok u => simp [close_windows_with_verification, hfalse]
    | error e => simp [close_windows_with_verification, hfalse]

/-- Witness for C7: with a failing close command and a leaked matching target
on every check, the call still returns normally and both failures appear only
in the log. -/
theorem close_verification_total_witness :
    (close_windows_with_verification "/w/proj"
        (.error (.protocolError "Runtime.evaluate" "boom")) 1
        (fun _ => .ok [⟨"t1", "proj - x", none, "ws://x", true⟩])).1 = .ok ()
  ∧ CloseLog.closeFailed
        (toString (repr (CdpErr.protocolError "Runtime.evaluate" "boom"))) ∈
      (close_windows_with_verification "/w/proj"
        (.error (.protocolError "Runtime.evaluate" "boom")) 1
        (fun _ => .ok [⟨"t1", "proj - x", none, "ws://x", true⟩])).2
  ∧ CloseLog.leakWarning ∈
      (close_windows_with_verification "/w/proj"
        (.error (.protocolError "Runtime.evaluate" "boom")) 1
        (fun _ => .ok [⟨"t1", "proj - x", none, "ws://x", true⟩])).2 := by
  refine ⟨(close_verification_total _ _ _ _).1,
    (close_verification_total _ _ _ _).2.1 _ rfl,
    (close_verification_total _ _ _ _).2.2 (by decide)⟩

/-- The try block of `coding` emits no cleanup action, and never binds the
`main_ws` local to the child connection. -/
theorem codingTry_trace (ty : String) (env : CodingEnv) :
    (codingTry ty env).2.1.filter isCloseVerify = []
  ∧ (codingTry ty env).2.2.1 ≠ some ConnTag.child := by
  unfold codingTry
  cases hm : env.mainConnect with
  | error e => exact ⟨rfl, by simp⟩
  | ok u =>
    cases u
    cases hp : env.callPages with
    | error e => simp [isCloseVerify]
    | ok b =>
      cases b with
      | false => simp [isCloseVerify]
      | true =>
        by_cases hty : ty = "embed"
        · simp only [hty, ne_eq, not_true_eq_false, if_false, ite_false]
          cases env.codeOutcome with
          | error e => simp [isCloseVerify]
          | ok u => cases u; simp [isCloseVerify]
        · simp only [ne_eq, hty, not_false_eq_true, if_true, ite_true]
          cases env.childConnect with
          | error e => simp [isCloseVerify]
          | ok u =>
            cases u
            cases env.codeOutcome with
            | error e => simp [isCloseVerify]
            | ok u2 => cases u2; simp [isCloseVerify]

/-- The debug-capture handler emits no cleanup action. -/
theorem debugTrace_filter (debug : Bool) (res : Except String Unit)
    (mainWs childWs : Option ConnTag) :
    (debugTrace debug res mainWs childWs).filter isCloseVerify = [] := by
  unfold debugTrace
  cases res with
  | ok u => cases u; rfl
  | error e =>
    by_cases hd : debug
    · simp only [hd, if_true]
      cases childWs <;> rfl
    · simp [hd]

/-- C4: once `coding` has passed `self.open` and entered its `try` block,
every exit path — success, or an exception raised by discovery, context
selection, focusing, payload submission, or completion waiting — invokes the
verified-close cleanup exactly once. -/
theorem coding_cleanup_once (ty : String) (debug : Bool) (env : CodingEnv)
    (hopen : env.openOk = .ok ()) :
    ((coding ty debug env).2.filter isCloseVerify).length = 1 := by
  simp only [coding, hopen]
  rw [List.filter_append, List.filter_append, (codingTry_trace ty env).1,
    debugTrace_filter]
  rfl

/-- Stage outcomes in which every stage of `coding` succeeds. -/
def codingWitnessEnv : CodingEnv :=
  ⟨.ok (), .ok (), .ok true, .ok (), .ok (), .ok ()⟩

/-- Witness for C4: a fully successful run invokes cleanup exactly once. -/
theorem coding_cleanup_once_witness :
    ((coding "Alibaba-Cloud.tongyi-lingma" false codingWitnessEnv).2.filter
      isCloseVerify).length = 1 :=
  coding_cleanup_once "Alibaba-Cloud.tongyi-lingma" false codingWitnessEnv rfl

/-- C10: for a non-embed variant, every cleanup action of a `coding` run is
performed on the `main_ws` local — never on the child connection through
which the payload was submitted — on every exit path. -/
theorem coding_cleanup_main_only (ty : String) (debug : Bool) (env : CodingEnv)
    (_hty : ty ≠ "embed") :
    ∀ o, CodingAct.closeVerifyOn o ∈ (coding ty debug env).2 →
      o ≠ some ConnTag.child := by
  intro o hmem
  cases hopen : env.openOk with
  | error e =>
    simp only [coding, hopen] at hmem
    simp at hmem
  | ok u =>
    cases u
    simp only [coding, hopen] at hmem
    rcases List.mem_append.1 hmem with hmem1 | hlast
    · rcases List.mem_append.1 hmem1 with htry | hdbg
      · have hnil := (codingTry_trace ty env).1
        rw [List.filter_eq_nil_iff] at hnil
        exact absurd (rfl : isCloseVerify (CodingAct.closeVerifyOn o) = true)
          (hnil _ htry)
      · have hnil := debugTrace_filter debug (codingTry ty env).1
          (codingTry ty env).2.2.1 (codingTry ty env).2.2.2
        rw [List.filter_eq_nil_iff] at hnil
        exact absurd (rfl : isCloseVerify (CodingAct.closeVerifyOn o) = true)
          (hnil _ hdbg)
    · have ho : o = (codingTry ty env).2.2.1 := by
        simpa using hlast
      rw [ho]
      exact (codingTry_trace ty env).2

/-- Witness for C10: in a fully successful non-embed run, no cleanup action
targets the child connection. -/
theorem coding_cleanup_main_only_witness :
    CodingAct.closeVerifyOn (some ConnTag.child) ∉
      (coding "Alibaba-Cloud.tongyi-lingma" false codingWitnessEnv).2 :=
  fun hmem =>
    coding_cleanup_main_only "Alibaba-Cloud.tongyi-lingma" false codingWitnessEnv
      (by decide) (some ConnTag.child) hmem rfl

/-- Once the in-progress flag is set, every subsequent caller only waits on
the completion event. -/
theorem runTriggers_true (n : Nat) :
    runTriggers n true = List.replicate n [AbortAct.waitEvent 30] := by
  induction n with
  | zero => rfl
  | succ k ih =>
    simp [runTriggers, electStep, terminateTrace, ih, List.replicate_succ]

/-- C1: among any positive number of concurrent abort triggers, exactly one
caller finds the in-progress flag clear inside the lock and runs the shutdown
body; every other caller's whole trace is a single bounded (30-second) wait
on the completion event, executing no shutdown action. -/
theorem abort_single_elector (n : Nat) (h : 0 < n) :
    (runTriggers n false).count shutdownBody = 1
  ∧ ∀ t ∈ runTriggers n false, t ≠ shutdownBody →
      t = [AbortAct.waitEvent 30] ∧ ∀ a ∈ t, a ∉ shutdownBody := by
  obtain ⟨m, rfl⟩ : ∃ m, n = m + 1 := ⟨n - 1, by omega⟩
  have hrun : runTriggers (m + 1) false =
      shutdownBody :: List.replicate m [AbortAct.waitEvent 30] := by
    simp [runTriggers, electStep, terminateTrace, runTriggers_true]
  rw [hrun]
  constructor
  · rw [List.count_cons_self, List.count_replicate]
    norm_num
    intro heq
    exact absurd heq (by decide)
  · intro t ht hne
    rcases List.mem_cons.1 ht with heq | hrep
    · exact absurd heq hne
    · have ht30 := List.eq_of_mem_replicate hrep
      subst ht30
      refine ⟨rfl, ?_⟩
      intro a ha
      have : a = AbortAct.waitEvent 30 := by simpa using ha
      subst this
      decide

/-- Witness for C1: with three concurrent triggers, exactly one trace is the
shutdown body. -/
theorem abort_single_elector_witness :
    (runTriggers 3 false).count shutdownBody = 1 :=
  (abort_single_elector 3 (by decide)).1
